import Mathlib

/-!
Verification of `test-libopencm3-stm32f1/adc-dual-stm32f103.c`: a dual-mode
ADC demo firmware whose interrupt handlers format conversion results as
ASCII decimal and push them through a ring buffer to a USART.

The C code is shallowly embedded: pure byte-producing functions become Lean
functions returning `List Nat` (byte values), peripheral side effects become
explicit action traces (`Act`), and the interrupt handlers become state
transformers over an explicit state.  The ring buffer implementation
(`buffer.c`) is not part of the sources; it is modelled from the design
spec, as marked on each of its definitions.
-/

/-- Byte values of a string, for relating byte lists to ASCII text. -/
def strBytes (s : String) : List Nat :=
  s.toList.map Char.toNat

/-- The lookup string `"0123456789"` used by `usart_print_int`. -/
def digitChars : List Nat := strBytes ("0123456789")

/-- The `while (value > 0)` loop of `usart_print_int`, written with a
structural fuel argument (the loop runs at most `value` times since
`value /= 10` strictly decreases a positive value): successive
least-significant decimal digit characters of `value`
(`buffer[nr_digits++] = "0123456789"[value % 10]; value /= 10;`). -/
def decDigitsRevAux : Nat → Nat → List Nat
  | 0, _ => []
  | fuel + 1, value =>
    if value = 0 then []
    else digitChars.getD (value % 10) 0 :: decDigitsRevAux fuel (value / 10)

/-- The digit characters of `value`, least significant first, as collected
in `buffer[]` by the `while (value > 0)` loop of `usart_print_int`. -/
def decDigitsRev (value : Nat) : List Nat :=
  decDigitsRevAux value value

/-- Embedding of `usart_print_int(int value)`: the sequence of bytes it passes to
`buffer_put(send_buffer, ·)`.  A leading `'-'` for negative values, then
the decimal digits most-significant first (the C stores them
least-significant first in `buffer[]` and emits them in reverse), then a
single `' '`. -/
def usart_print_int (value : Int) : List Nat :=
  let minus : List Nat := if value < 0 then [45] else []
  let mag : Nat := value.natAbs
  let digits : List Nat := if mag = 0 then [48] else decDigitsRev mag
  minus ++ digits.reverse ++ [32]

/-- Embedding of `usart_print_string`: pushes each byte of the string in order. -/
def usart_print_string (s : String) : List Nat := strBytes s

/-- One iteration body of the `for` loop in `adc1_2_isr`:
`usart_print_int(v[i] & 0xFFFF); usart_print_string("- ");
usart_print_int(v[i] >> 16);` where `v[i]` is a `uint32_t`. -/
def format_word (w : Nat) : List Nat :=
  usart_print_int (Int.ofNat (w % 65536)) ++ usart_print_string ("- ") ++
    usart_print_int (Int.ofNat (w / 65536))

/-- The `for` loop of `adc1_2_isr` with a structural fuel argument equal to
the number of remaining iterations.  Returns the bytes pushed and the final
value of the loop counter. -/
def adc_isr_loopAux (v : List Nat) : Nat → Nat → List Nat × Nat
  | 0, i => ([], i)
  | fuel + 1, i =>
    let p := adc_isr_loopAux v fuel (i + 1)
    (format_word (v.getD i 0) ++ p.1, p.2)

/-- The `for (i = 0; i < bound; i++)` loop of `adc1_2_isr`, starting at
index `i` with bound `bound = n_conv/2`.  Returns the bytes pushed and the
final value of the static counter `i`. -/
def adc_isr_loop (v : List Nat) (bound : Nat) (i : Nat) : List Nat × Nat :=
  adc_isr_loopAux v (bound - i) i

/-- All bytes one invocation of `adc1_2_isr` pushes into `send_buffer`:
the formatted words followed by `"\r\n"`. -/
def adc1_2_isr_bytes (v : List Nat) (n_conv : Nat) : List Nat :=
  (adc_isr_loop v (n_conv / 2) 0).1 ++ usart_print_string ("\r\n")

/-- The `channel_array` contents programmed into ADC1 by `main`:
`for (i = 0; i < n_conv/2; i++) channel_array[i] = i;`. -/
def channel_array_adc1 (n_conv : Nat) : List Nat :=
  (List.range (n_conv / 2)).map (fun i => i)

/-- The `channel_array` contents programmed into ADC2 by `main`:
`for (i = 0; i < n_conv/2; i++) channel_array[i] = i + n_conv/2;`. -/
def channel_array_adc2 (n_conv : Nat) : List Nat :=
  (List.range (n_conv / 2)).map (fun i => i + n_conv / 2)

/-- Decimal re-parse of a digit-character list, most significant first. -/
def digitsToNat (ds : List Nat) : Nat :=
  ds.foldl (fun a d => 10 * a + (d - 48)) 0

/-- Parse back the output of `usart_print_int`: an optional leading `'-'`,
digits, and one trailing separator byte. -/
def parsePrinted (bs : List Nat) : Int :=
  if bs.headD 0 = 45 then -(digitsToNat bs.tail.dropLast : Int)
  else (digitsToNat bs.dropLast : Int)

/-- Modelled from the spec: the ring buffer of `buffer.c` (declared in
`buffer.h`, not among the sources).  Spec §4.1: fixed capacity with one
slot reserved to distinguish full from empty; head index, tail index;
`head == tail` means empty. -/
structure RingBuffer where
  size : Nat
  head : Nat
  tail : Nat
  data : List Nat
  deriving Repr, DecidableEq

/-- Modelled from the spec: `buffer_init(buffer, size)` — buffer.c is not
among the sources.  Spec §4.1: resets head and tail to zero; storage of
`size + 1` slots, one reserved to distinguish full from empty. -/
def buffer_init (size : Nat) : RingBuffer :=
  { size := size, head := 0, tail := 0, data := List.replicate (size + 1) 0 }

/-- Modelled from the spec: `buffer_put(buffer, byte)` — buffer.c is not
among the sources.  Spec §4.1: writes at the tail and advances it; if the
buffer is full the write is a silent no-op (the byte is lost). -/
def buffer_put (b : RingBuffer) (c : Nat) : RingBuffer :=
  let newTail := (b.tail + 1) % (b.size + 1)
  if newTail = b.head then b
  else { b with tail := newTail, data := b.data.set b.tail c }

/-- Modelled from the spec: `buffer_get(buffer)` returning `uint16_t` —
buffer.c is not among the sources.  Spec §4.1: reads at the head and
advances it, returning a sentinel with a reserved high bit pattern
(modelled as `0x100`, which satisfies the caller's `(data & 0xFF00) > 0`
check) when the buffer is empty, without advancing state. -/
def buffer_get (b : RingBuffer) : Nat × RingBuffer :=
  if b.head = b.tail then (0x100, b)
  else (b.data.getD b.head 0, { b with head := (b.head + 1) % (b.size + 1) })

/-- The bytes stored in the buffer, from head to tail. -/
def bufContents (b : RingBuffer) : List Nat :=
  if b.head ≤ b.tail then ((b.data.drop b.head).take (b.tail - b.head))
  else (b.data.drop b.head) ++ b.data.take b.tail

/-- The static local variables of the two interrupt handlers:
`static uint8_t i` in `adc1_2_isr` and `static uint16_t data` in
`usart1_isr`. -/
structure Statics where
  adcIsr_i : Nat
  usartIsr_data : Nat
  deriving Repr, DecidableEq

/-- The state touched by `usart1_isr`: the two ring buffers and the
USART transmit-empty interrupt enable bit (USART_CR1 TXEIE). -/
structure UsartState where
  sendBuf : RingBuffer
  recvBuf : RingBuffer
  txIntEnabled : Bool
  deriving Repr, DecidableEq

/-- One invocation of `adc1_2_isr` as a state transformer: returns the
bytes passed to `buffer_put(send_buffer, ·)` in order, the updated USART
state (all bytes folded into the send buffer; transmit interrupt enabled
by the final `usart_enable_tx_interrupt(USART1)`), and the updated statics
(the loop leaves its counter `i` at `n_conv/2`; the loop re-initialises
`i = 0` before reading it, so the previous value is never consulted). -/
def adc1_2_isr_run (v : List Nat) (n_conv : Nat) (st : Statics)
    (s : UsartState) : List Nat × UsartState × Statics :=
  let p := adc_isr_loop v (n_conv / 2) 0
  let bytes := p.1 ++ usart_print_string ("\r\n")
  (bytes,
   { s with sendBuf := bytes.foldl buffer_put s.sendBuf, txIntEnabled := true },
   { st with adcIsr_i := p.2 })

/-- One invocation of `usart1_isr` as a state transformer, given the two
status-register flags and the byte sitting in the receive register:
on RXNE, push the received byte (cast to `uint8_t`) into `receive_buffer`;
on TXE, pop `send_buffer` into the static `data`; if `(data & 0xFF00) > 0`
disable the transmit interrupt, otherwise send `data & 0xFF`.  Returns the
updated USART state, the updated statics, and the bytes written to the
transmit data register. -/
def usart1_isr_run (rxne txe : Bool) (rxByte : Nat) (st : Statics)
    (s : UsartState) : UsartState × Statics × List Nat :=
  let s1 := if rxne then { s with recvBuf := buffer_put s.recvBuf (rxByte % 256) } else s
  if txe then
    let p := buffer_get s1.sendBuf
    let st1 := { st with usartIsr_data := p.1 }
    if p.1 &&& 0xFF00 > 0 then
      ({ s1 with sendBuf := p.2, txIntEnabled := false }, st1, [])
    else
      ({ s1 with sendBuf := p.2 }, st1, [p.1 &&& 0xFF])
  else (s1, st, [])

/-- Symbolic addresses used by the DMA configuration. -/
inductive Addr where
  /-- Address `&ADC1_DR`, the ADC1 regular data register. -/
  | adc1_dr : Addr
  /-- Address `&v[i]`: the address of element `i` of the global array `v`;
  `vArray 0` is the start of the sample store. -/
  | vArray : Nat → Addr
  deriving Repr, DecidableEq

/-- Peripheral-level actions performed by `main` and the interrupt
handlers, in program order. -/
inductive Act where
  /-- Call `buffer_put(send_buffer, b)`. -/
  | put : Nat → Act
  /-- Call `buffer_init(send_buffer, BUFFER_SIZE)`. -/
  | bufferInitSend : Act
  /-- Call `buffer_init(receive_buffer, BUFFER_SIZE)`. -/
  | bufferInitRecv : Act
  /-- Call `usart_enable_tx_interrupt(USART1)`. -/
  | usartEnableTxInt : Act
  /-- Call `usart_disable_tx_interrupt(USART1)`. -/
  | usartDisableTxInt : Act
  /-- Call `usart_enable_rx_interrupt(USART1)`. -/
  | usartEnableRxInt : Act
  /-- Call `usart_enable(USART1)`. -/
  | usartEnable : Act
  /-- Call `rcc_peripheral_enable_clock(&RCC_AHBENR, RCC_AHBENR_DMA1EN)`. -/
  | dmaClockEnable : Act
  /-- Call `dma_channel_reset(DMA1, DMA_CHANNEL1)`. -/
  | dmaChannelReset : Act
  /-- Call `dma_set_priority(DMA1, DMA_CHANNEL1, DMA_CCR_PL_LOW)`. -/
  | dmaSetPriorityLow : Act
  /-- Call `dma_set_memory_size(DMA1, DMA_CHANNEL1, DMA_CCR_MSIZE_32BIT)`. -/
  | dmaSetMemorySize32 : Act
  /-- Call `dma_set_peripheral_size(DMA1, DMA_CHANNEL1, DMA_CCR_PSIZE_32BIT)`. -/
  | dmaSetPeripheralSize32 : Act
  /-- Call `dma_enable_memory_increment_mode(DMA1, DMA_CHANNEL1)`. -/
  | dmaEnableMemIncrement : Act
  /-- Call `dma_set_read_from_peripheral(DMA1, DMA_CHANNEL1)`. -/
  | dmaSetReadFromPeripheral : Act
  /-- Call `dma_set_peripheral_address(DMA1, DMA_CHANNEL1, a)`. -/
  | dmaSetPeripheralAddress : Addr → Act
  /-- Call `dma_set_memory_address(DMA1, DMA_CHANNEL1, a)`. -/
  | dmaSetMemoryAddress : Addr → Act
  /-- Call `dma_set_number_of_data(DMA1, DMA_CHANNEL1, n)`. -/
  | dmaSetNumberOfData : Nat → Act
  /-- Call `dma_enable_channel(DMA1, DMA_CHANNEL1)`. -/
  | dmaEnableChannel : Act
  /-- Call `adc_set_regular_sequence(ADCunit, length, channels)`. -/
  | adcSetRegularSequence : Nat → Nat → List Nat → Act
  /-- One completed poll-and-clear of the timer compare flag:
  `while (!timer_get_flag(TIM2, TIM_SR_CC1IF)); timer_clear_flag(TIM2, TIM_SR_CC1IF);` -/
  | timerPollClear : Act
  /-- Call `adc_start_conversion_regular(ADCunit)`. -/
  | adcStartConversion : Nat → Act
  /-- An opaque hardware-setup call with no buffer or interrupt-enable
  effect (`clock_setup`, `gpio_setup`, `timer_setup`, `adc_setup`, and the
  GPIO/baud-rate lines of `usart_setup`). -/
  | setupCall : Act
  deriving Repr, DecidableEq

instance : Inhabited Act := ⟨Act.setupCall⟩

/-- Holds (as `true`) exactly on `buffer_put(send_buffer, ·)` actions. -/
def isPut : Act → Bool
  | Act.put _ => true
  | _ => false

/-- The body of `dma_setup()`, in program order: clock enable, channel
reset, then the full channel reconfiguration ending with channel enable. -/
def dma_setup_actions : List Act :=
  [Act.dmaClockEnable,
   Act.dmaChannelReset,
   Act.dmaSetPriorityLow,
   Act.dmaSetMemorySize32,
   Act.dmaSetPeripheralSize32,
   Act.dmaEnableMemIncrement,
   Act.dmaSetReadFromPeripheral,
   Act.dmaSetPeripheralAddress Addr.adc1_dr,
   Act.dmaSetMemoryAddress (Addr.vArray 0),
   Act.dmaSetNumberOfData 64,
   Act.dmaEnableChannel]

/-- One invocation of `adc1_2_isr` as an action trace: push every
formatted byte, then `dma_setup()`, then
`usart_enable_tx_interrupt(USART1)`. -/
def adc1_2_isr_actions (v : List Nat) (n_conv : Nat) : List Act :=
  (adc1_2_isr_bytes v n_conv).map Act.put ++ dma_setup_actions ++
    [Act.usartEnableTxInt]

/-- The interrupt-relevant tail of `usart_setup()`:
`usart_enable_rx_interrupt(USART1); usart_disable_tx_interrupt(USART1);
usart_enable(USART1);` after the GPIO and line-parameter calls. -/
def usart_setup_actions : List Act :=
  [Act.setupCall, Act.usartEnableRxInt, Act.usartDisableTxInt,
   Act.usartEnable]

/-- Trace of `main()` from entry to the end of the startup banner push: the setup
calls, buffer initialisation, `usart_enable_tx_interrupt(USART1)`, then
`usart_print_string("Dual ADC 8 channels 0-7 DMA IRQ\r\n")`, then the
channel-sequence programming for both ADC units. -/
def main_startup_actions (n_conv : Nat) : List Act :=
  [Act.setupCall, Act.setupCall] ++ usart_setup_actions ++
    dma_setup_actions ++ [Act.setupCall, Act.setupCall] ++
    [Act.bufferInitSend, Act.bufferInitRecv, Act.usartEnableTxInt] ++
    (usart_print_string ("Dual ADC 8 channels 0-7 DMA IRQ\r\n")).map Act.put ++
    [Act.adcSetRegularSequence 1 (n_conv / 2) (channel_array_adc1 n_conv),
     Act.adcSetRegularSequence 2 (n_conv / 2) (channel_array_adc2 n_conv)]

/-- The `for (i = 0; i < 500; i++)` wait of the main loop, with a
structural fuel argument equal to the number of remaining iterations;
each iteration is one poll-and-clear of the timer compare flag. -/
def pollClearRepeat : Nat → List Act
  | 0 => []
  | k + 1 => Act.timerPollClear :: pollClearRepeat k

/-- The timer wait of the main loop from loop index `i`:
`for (; i < 500; i++) { while (!flag); clear; }`. -/
def timer_wait_loop (i : Nat) : List Act :=
  pollClearRepeat (500 - i)

/-- One iteration of `main`'s `while (1)` loop: wait for 500 compare-match
events, then `adc_start_conversion_regular(ADC1)`. -/
def main_loop_body : List Act :=
  timer_wait_loop 0 ++ [Act.adcStartConversion 1]

/-- A busy-wait `while (!cond)` polling loop over a stream of hardware
flag readings `cond : Nat → Bool` (reading index = poll number), started
at poll `t`, with `fuel` remaining polls: returns the first poll index at
which the condition was observed `true`, or `none` if the condition was
not observed within `fuel` polls.  The C loop has no timeout: `fuel` is an
observation bound of the model, not part of the code. -/
def busy_wait_poll (cond : Nat → Bool) : Nat → Nat → Option Nat
  | 0, _ => none
  | fuel + 1, t => if cond t then some t else busy_wait_poll cond fuel (t + 1)

/-- The two calibration waits of `adc_setup()`:
`while (adc_is_calibrating(ADC1));` then, after powering and starting the
calibration of ADC2, `while (adc_is_calibrating(ADC2));`.  Each wait polls
until the calibration-in-progress flag reads clear; the second wait begins
strictly after the first returns.  Returns the pair of poll indices at
which the two flags were observed clear, or `none` if either wait never
observes its flag clear within `fuel` polls. -/
def adc_setup_calibration_waits (calA calB : Nat → Bool) (fuel : Nat) :
    Option (Nat × Nat) :=
  match busy_wait_poll (fun t => !calA t) fuel 0 with
  | none => none
  | some t1 =>
    match busy_wait_poll (fun t => !calB t) fuel (t1 + 1) with
    | none => none
    | some t2 => some (t1, t2)

/-- From `uint32_t v[128]`: the number of 32-bit elements of the global sample
store `v`. -/
def v_length : Nat := 128

/-- From `#define BUFFER_SIZE 128`. -/
def BUFFER_SIZE : Nat := 128

/-- From `uint8_t n_conv = 8`: the global channel count. -/
def n_conv_initial : Nat := 8

/-- The transfer counts programmed by `dma_setup`
(`dma_set_number_of_data(DMA1, DMA_CHANNEL1, 64)`). -/
def dmaCountsProgrammed : List Nat :=
  dma_setup_actions.filterMap fun a =>
    match a with
    | Act.dmaSetNumberOfData n => some n
    | _ => none

lemma digitsToNat_append (l : List Nat) (d : Nat) :
    digitsToNat (l ++ [d]) = 10 * digitsToNat l + (d - 48) := by
  simp [digitsToNat, List.foldl_append]

lemma digitChars_getD (k : Nat) (h : k < 10) : digitChars.getD k 0 = 48 + k := by
  interval_cases k <;> rfl

lemma decDigitsRevAux_spec (fuel : Nat) : ∀ value : Nat, value ≤ fuel →
    digitsToNat (decDigitsRevAux fuel value).reverse = value ∧
    (∀ d ∈ decDigitsRevAux fuel value, 48 ≤ d ∧ d ≤ 57) ∧
    (value ≠ 0 → decDigitsRevAux fuel value ≠ []) := by
  induction fuel with
  | zero =>
    intro value hv
    have : value = 0 := Nat.le_zero.mp hv
    subst this
    refine ⟨rfl, by simp [decDigitsRevAux], by simp⟩
  | succ fuel ih =>
    intro value hv
    by_cases h0 : value = 0
    · subst h0
      refine ⟨rfl, by simp [decDigitsRevAux], by simp⟩
    · have hmod : value % 10 < 10 := Nat.mod_lt _ (by decide)
      have hdiv : value / 10 ≤ fuel := by
        have := Nat.div_lt_self (Nat.pos_of_ne_zero h0) (by decide : 1 < 10)
        omega
      obtain ⟨ihv, ihm, _⟩ := ih (value / 10) hdiv
      have hunf : decDigitsRevAux (fuel + 1) value =
          digitChars.getD (value % 10) 0 :: decDigitsRevAux fuel (value / 10) := by
        simp [decDigitsRevAux, h0]
      refine ⟨?_, ?_, by simp [hunf]⟩
      · rw [hunf, List.reverse_cons, digitsToNat_append, ihv,
          digitChars_getD _ hmod]
        omega
      · intro d hd
        rw [hunf] at hd
        rcases List.mem_cons.mp hd with h | h
        · rw [h, digitChars_getD _ hmod]; omega
        · exact ihm d h

lemma decDigitsRev_spec (value : Nat) :
    digitsToNat (decDigitsRev value).reverse = value ∧
    (∀ d ∈ decDigitsRev value, 48 ≤ d ∧ d ≤ 57) ∧
    (value ≠ 0 → decDigitsRev value ≠ []) :=
  decDigitsRevAux_spec value value le_rfl

/-- The digit block produced by `usart_print_int` for magnitude `m`:
nonempty, all decimal digit characters, and re-parsing it (most
significant first) recovers `m`. -/
lemma printDigits_spec (m : Nat) :
    digitsToNat ((if m = 0 then [48] else decDigitsRev m)).reverse = m ∧
    (if m = 0 then [48] else decDigitsRev m) ≠ [] ∧
    (∀ d ∈ (if m = 0 then [48] else decDigitsRev m), 48 ≤ d ∧ d ≤ 57) := by
  by_cases h0 : m = 0
  · subst h0
    refine ⟨by decide, by decide, by decide⟩
  · obtain ⟨h1, h2, h3⟩ := decDigitsRev_spec m
    simp only [h0, if_false]
    exact ⟨h1, h3 h0, h2⟩

lemma parsePrinted_of_digits (ds : List Nat) (hne : ds ≠ [])
    (hdig : ∀ d ∈ ds, 48 ≤ d ∧ d ≤ 57) :
    parsePrinted (ds ++ [32]) = (digitsToNat ds : Int) := by
  cases ds with
  | nil => exact absurd rfl hne
  | cons a t =>
    have ha : 48 ≤ a ∧ a ≤ 57 := hdig a (List.mem_cons_self a t)
    have hne45 : a ≠ 45 := by omega
    have key : ((a :: t) ++ [32]).dropLast = a :: t := List.dropLast_concat
    have hcond : ((a :: t) ++ [32]).headD 0 = a := by
      rw [List.cons_append]; rfl
    simp only [parsePrinted]
    rw [hcond, if_neg hne45, key]

lemma parsePrinted_neg_of_digits (ds : List Nat) (_hne : ds ≠ [])
    (_hdig : ∀ d ∈ ds, 48 ≤ d ∧ d ≤ 57) :
    parsePrinted (45 :: (ds ++ [32])) = -(digitsToNat ds : Int) := by
  have : (45 :: (ds ++ [32])).tail = ds ++ [32] := rfl
  simp [parsePrinted, this, List.dropLast_concat]

/-- Claim C1: with `n_conv = 8`, `main` programs ADC1 with channel sequence
`[0,1,2,3]` and ADC2 with `[4,5,6,7]`; given the first four sample-store
words `[0x00010002, 0x00030004, 0x00050006, 0x00070008]`, one invocation of
`adc1_2_isr` pushes exactly the bytes of `"2 - 1 4 - 3 6 - 5 8 - 7 \r\n"`
into the outbound buffer, and when the buffer does not overflow (here: the
freshly initialised `send_buffer` of capacity `BUFFER_SIZE`), exactly those
bytes land in it. -/
theorem claim_C1 (st : Statics) (s : UsartState) :
    channel_array_adc1 8 = [0, 1, 2, 3] ∧
    channel_array_adc2 8 = [4, 5, 6, 7] ∧
    (adc1_2_isr_run [0x00010002, 0x00030004, 0x00050006, 0x00070008] 8 st s).1
      = strBytes ("2 - 1 4 - 3 6 - 5 8 - 7 \r\n") ∧
    bufContents ((adc1_2_isr_run [0x00010002, 0x00030004, 0x00050006, 0x00070008] 8
        ⟨0, 0⟩
        { sendBuf := buffer_init BUFFER_SIZE, recvBuf := buffer_init BUFFER_SIZE,
          txIntEnabled := true }).2.1.sendBuf)
      = strBytes ("2 - 1 4 - 3 6 - 5 8 - 7 \r\n") := by
  refine ⟨by decide, by decide, by rfl, by decide⟩

/-- Claim C2 counterexample: the claim "the array `v` has exactly as many
32-bit elements as the number of data items programmed into the DMA
channel (64)" is false: `dma_setup` programs a transfer count of 64, but
`v` is declared `uint32_t v[128]` with 128 elements. -/
theorem claim_C2_cex : dmaCountsProgrammed = [64] ∧ v_length ≠ 64 := by decide

/-- Claim C2 (amended): `v` has 128 32-bit elements — twice the DMA burst
size; the only transfer count programmed by `dma_setup` is 64, so the
64-word burst fits within `v`. -/
theorem claim_C2 : v_length = 128 ∧ dmaCountsProgrammed = [64] ∧
    v_length = 2 * 64 ∧ 64 ≤ v_length := by decide

/-- Claim C3: for every signed 16-bit value, `usart_print_int` pushes an
optional leading `'-'`, the decimal digits most significant first, and a
single trailing space, and re-parsing the text recovers the value; `0`
renders as `"0 "` and `-1` as `"-1 "`. -/
theorem claim_C3 (val : Int) (h1 : -32768 ≤ val) (h2 : val ≤ 32767) :
    parsePrinted (usart_print_int val) = val ∧
    (∃ ds, ds ≠ [] ∧ (∀ d ∈ ds, 48 ≤ d ∧ d ≤ 57) ∧
      usart_print_int val = (if val < 0 then [45] else []) ++ ds ++ [32]) ∧
    usart_print_int 0 = strBytes ("0 ") ∧
    usart_print_int (-1) = strBytes ("-1 ") := by
  obtain ⟨hval, hne, hdig⟩ := printDigits_spec val.natAbs
  have hds : ∀ d ∈ ((if val.natAbs = 0 then [48] else decDigitsRev val.natAbs)).reverse,
      48 ≤ d ∧ d ≤ 57 := by
    intro d hd
    exact hdig d (List.mem_reverse.mp hd)
  have hrne : ((if val.natAbs = 0 then [48] else decDigitsRev val.natAbs)).reverse ≠ [] := by
    simpa using hne
  have hshape : usart_print_int val = (if val < 0 then [45] else []) ++
      ((if val.natAbs = 0 then [48] else decDigitsRev val.natAbs)).reverse ++ [32] := rfl
  refine ⟨?_, ⟨_, hrne, hds, hshape⟩, by decide, by decide⟩
  rw [hshape]
  by_cases hneg : val < 0
  · simp only [hneg, if_true]
    have hassoc : ([45] ++ ((if val.natAbs = 0 then [48] else decDigitsRev val.natAbs)).reverse)
        ++ [32] = 45 :: (((if val.natAbs = 0 then [48] else decDigitsRev val.natAbs)).reverse
          ++ [32]) := by
      simp
    rw [hassoc, parsePrinted_neg_of_digits _ hrne hds, hval]
    omega
  · simp only [hneg, if_false]
    rw [List.nil_append, parsePrinted_of_digits _ hrne hds, hval]
    omega

/-- Witness for C3 at `val = -123`. -/
theorem claim_C3_witness :
    ((-32768 : Int) ≤ -123 ∧ (-123 : Int) ≤ 32767) ∧
    parsePrinted (usart_print_int (-123)) = -123 :=
  ⟨⟨by decide, by decide⟩, (claim_C3 (-123) (by decide) (by decide)).1⟩

/-- Claim C4: for every packed 32-bit word `W`, the loop body of
`adc1_2_isr` formats `W & 0xFFFF` first, then the literal `"- "`, then
`(W >> 16) & 0xFFFF`. -/
theorem claim_C4 (w : Nat) (hw : w < 2 ^ 32) :
    format_word w =
      usart_print_int (Int.ofNat (w &&& 0xFFFF)) ++ usart_print_string ("- ") ++
        usart_print_int (Int.ofNat ((w >>> 16) &&& 0xFFFF)) := by
  have h1 : w &&& 0xFFFF = w % 65536 := by
    have h : (0xFFFF : Nat) = 2 ^ 16 - 1 := by norm_num
    rw [h, Nat.and_pow_two_sub_one_eq_mod]
  have hsh : w >>> 16 = w / 65536 := Nat.shiftRight_eq_div_pow w 16
  have hlt : w / 65536 < 65536 := by omega
  have h2 : (w >>> 16) &&& 0xFFFF = w / 65536 := by
    have h : (0xFFFF : Nat) = 2 ^ 16 - 1 := by norm_num
    rw [hsh, h, Nat.and_pow_two_sub_one_eq_mod]
    exact Nat.mod_eq_of_lt hlt
  rw [format_word, h1, h2]

/-- Witness for C4 at `W = 0x00010002`. -/
theorem claim_C4_witness :
    (0x00010002 : Nat) < 2 ^ 32 ∧
    format_word 0x00010002 =
      usart_print_int (Int.ofNat (0x00010002 &&& 0xFFFF)) ++ usart_print_string ("- ") ++
        usart_print_int (Int.ofNat ((0x00010002 >>> 16) &&& 0xFFFF)) :=
  ⟨by decide, claim_C4 0x00010002 (by decide)⟩

/-- Claim C5: on an observed transmit-register-empty condition,
`usart1_isr` pops one element from the outbound ring buffer; if the popped
value has any of its high 8 bits set it disables the transmit interrupt
and writes nothing to the transmit register, otherwise it writes the low
8 bits and leaves the interrupt enable unchanged. -/
theorem claim_C5 (rxne : Bool) (rxByte : Nat) (st : Statics) (s : UsartState) :
    (usart1_isr_run rxne true rxByte st s).1.sendBuf = (buffer_get s.sendBuf).2 ∧
    (if (buffer_get s.sendBuf).1 &&& 0xFF00 > 0 then
      (usart1_isr_run rxne true rxByte st s).1.txIntEnabled = false ∧
        (usart1_isr_run rxne true rxByte st s).2.2 = []
    else
      (usart1_isr_run rxne true rxByte st s).2.2 = [(buffer_get s.sendBuf).1 &&& 0xFF] ∧
        (usart1_isr_run rxne true rxByte st s).1.txIntEnabled = s.txIntEnabled) := by
  cases rxne <;>
    · simp only [usart1_isr_run, if_true, if_false, Bool.false_eq_true]
      split <;> simp_all

/-- Claim C6: every invocation of `adc1_2_isr` performs, before returning,
the full DMA reconfiguration of `dma_setup` — channel reset followed by
reprogramming the peripheral address, the memory address back to the start
of `v`, and the transfer count — and then re-enables the USART
transmit-empty interrupt; everything preceding the reconfiguration is a
byte push. -/
theorem claim_C6 (v : List Nat) (n_conv : Nat) :
    (∃ pre, adc1_2_isr_actions v n_conv =
        pre ++ dma_setup_actions ++ [Act.usartEnableTxInt] ∧
        ∀ a ∈ pre, isPut a = true) ∧
    (∃ i1 i2 i3 i4, i1 < i2 ∧ i2 < i3 ∧ i3 < i4 ∧
      dma_setup_actions.getD i1 default = Act.dmaChannelReset ∧
      dma_setup_actions.getD i2 default = Act.dmaSetPeripheralAddress Addr.adc1_dr ∧
      dma_setup_actions.getD i3 default = Act.dmaSetMemoryAddress (Addr.vArray 0) ∧
      dma_setup_actions.getD i4 default = Act.dmaSetNumberOfData 64) := by
  constructor
  · refine ⟨(adc1_2_isr_bytes v n_conv).map Act.put, rfl, ?_⟩
    intro a ha
    obtain ⟨b, _, hb⟩ := List.mem_map.mp ha
    rw [← hb]
    rfl
  · exact ⟨1, 7, 8, 9, by decide, by decide, by decide, by decide, by decide,
      by decide, by decide⟩

set_option maxRecDepth 4000

lemma pollClearRepeat_eq (k : Nat) :
    pollClearRepeat k = List.replicate k Act.timerPollClear := by
  induction k with
  | zero => rfl
  | succ k ih => rw [pollClearRepeat, ih, List.replicate_succ]

/-- Claim C7: one iteration of `main`'s operational loop is exactly 500
poll-and-clear compare-match events followed by a single
`adc_start_conversion_regular(ADC1)`; no start command occurs among the
first 500 events. -/
theorem claim_C7 :
    main_loop_body = List.replicate 500 Act.timerPollClear ++
      [Act.adcStartConversion 1] ∧
    main_loop_body.take 500 = List.replicate 500 Act.timerPollClear ∧
    main_loop_body.drop 500 = [Act.adcStartConversion 1] ∧
    Act.adcStartConversion 1 ∉ List.replicate 500 Act.timerPollClear := by
  have h : main_loop_body = List.replicate 500 Act.timerPollClear ++
      [Act.adcStartConversion 1] := by
    rw [main_loop_body, timer_wait_loop, pollClearRepeat_eq]
  have hlen : (List.replicate 500 Act.timerPollClear).length = 500 :=
    List.length_replicate 500 Act.timerPollClear
  refine ⟨h, ?_, ?_, ?_⟩
  · rw [h, ← hlen]
    exact List.take_left _ _
  · rw [h, ← hlen]
    exact List.drop_left _ _
  · intro hmem
    have := (List.eq_of_mem_replicate hmem)
    exact absurd this (by intro hcontra; cases hcontra)

lemma busy_wait_poll_none (cond : Nat → Bool) (h : ∀ t, cond t = false) :
    ∀ fuel t0, busy_wait_poll cond fuel t0 = none := by
  intro fuel
  induction fuel with
  | zero => intro t0; rfl
  | succ fuel ih =>
    intro t0
    rw [busy_wait_poll, h t0]
    exact ih (t0 + 1)

lemma busy_wait_poll_some (cond : Nat → Bool) :
    ∀ fuel t0 t, busy_wait_poll cond fuel t0 = some t → cond t = true ∧ t0 ≤ t := by
  intro fuel
  induction fuel with
  | zero => intro t0 t h; exact absurd h (by rw [busy_wait_poll]; simp)
  | succ fuel ih =>
    intro t0 t h
    rw [busy_wait_poll] at h
    by_cases hc : cond t0 = true
    · rw [if_pos hc] at h
      obtain rfl : t0 = t := Option.some.inj h
      exact ⟨hc, le_rfl⟩
    · rw [if_neg hc] at h
      obtain ⟨h1, h2⟩ := ih (t0 + 1) t h
      exact ⟨h1, by omega⟩

/-- Claim C8: the busy-waits have no timeout.  If the
calibration-in-progress flag of unit A never clears, the calibration wait
of `adc_setup` observes no completion within any number of polls; if the
timer compare-match flag is never set, the main loop's wait likewise never
advances.  Conversely, whenever the calibration waits return, unit A's
flag was observed clear strictly before unit B's, and whenever a
`while (!flag)` wait advances, the flag was observed set. -/
theorem claim_C8 (calA calB flag : Nat → Bool) (t0 : Nat)
    (hA : ∀ t, calA t = true) (hF : ∀ t, flag t = false) :
    (∀ fuel, adc_setup_calibration_waits calA calB fuel = none) ∧
    (∀ fuel, busy_wait_poll flag fuel t0 = none) ∧
    (∀ (cA cB : Nat → Bool) (fuel t1 t2 : Nat),
      adc_setup_calibration_waits cA cB fuel = some (t1, t2) →
      cA t1 = false ∧ cB t2 = false ∧ t1 < t2) ∧
    (∀ (g : Nat → Bool) (fuel s t : Nat),
      busy_wait_poll g fuel s = some t → g t = true) := by
  refine ⟨?_, ?_, ?_, ?_⟩
  · intro fuel
    rw [adc_setup_calibration_waits,
      busy_wait_poll_none (fun t => !calA t) (fun t => by simp [hA t]) fuel 0]
  · intro fuel
    exact busy_wait_poll_none flag hF fuel t0
  · intro cA cB fuel t1 t2 h
    rw [adc_setup_calibration_waits] at h
    cases h1 : busy_wait_poll (fun t => !cA t) fuel 0 with
    | none => rw [h1] at h; cases h
    | some s1 =>
      rw [h1] at h
      have h' : (match busy_wait_poll (fun t => !cB t) fuel (s1 + 1) with
          | none => none
          | some t2 => some (s1, t2)) = some (t1, t2) := h
      cases h2 : busy_wait_poll (fun t => !cB t) fuel (s1 + 1) with
      | none => rw [h2] at h'; cases h'
      | some s2 =>
        rw [h2] at h'
        have hp := Option.some.inj h'
        have h3 : s1 = t1 := congrArg Prod.fst hp
        have h4 : s2 = t2 := congrArg Prod.snd hp
        obtain ⟨hb1, _⟩ := busy_wait_poll_some _ fuel 0 s1 h1
        obtain ⟨hb2, hle⟩ := busy_wait_poll_some _ fuel (s1 + 1) s2 h2
        refine ⟨by rw [← h3]; simpa using hb1, by rw [← h4]; simpa using hb2,
          by omega⟩
  · intro g fuel s t h
    exact (busy_wait_poll_some g fuel s t h).1

/-- Witness for C8: with an always-set calibration flag and a never-set
compare-match flag, neither wait completes within 5 polls. -/
theorem claim_C8_witness :
    adc_setup_calibration_waits (fun _ => true) (fun _ => true) 5 = none ∧
    busy_wait_poll (fun _ => false) 5 0 = none :=
  ⟨(claim_C8 (fun _ => true) (fun _ => true) (fun _ => false) 0
      (fun _ => rfl) (fun _ => rfl)).1 5,
   (claim_C8 (fun _ => true) (fun _ => true) (fun _ => false) 0
      (fun _ => rfl) (fun _ => rfl)).2.1 5⟩

/-- Claim C9: the interrupt handlers are deterministic in the carried
static locals: two invocations of `adc1_2_isr` with equal sample store,
channel count and buffer state push identical bytes and produce identical
USART state, and two invocations of `usart1_isr` with equal flags, receive
byte and state produce identical USART state and transmit-register writes,
for any two values of the static locals. -/
theorem claim_C9 (v : List Nat) (n_conv : Nat) (s : UsartState)
    (st1 st2 : Statics) (rxne txe : Bool) (rxByte : Nat) :
    (adc1_2_isr_run v n_conv st1 s).1 = (adc1_2_isr_run v n_conv st2 s).1 ∧
    (adc1_2_isr_run v n_conv st1 s).2.1 = (adc1_2_isr_run v n_conv st2 s).2.1 ∧
    (usart1_isr_run rxne txe rxByte st1 s).1 =
      (usart1_isr_run rxne txe rxByte st2 s).1 ∧
    (usart1_isr_run rxne txe rxByte st1 s).2.2 =
      (usart1_isr_run rxne txe rxByte st2 s).2.2 := by
  refine ⟨rfl, rfl, ?_, ?_⟩ <;>
    · cases rxne <;> cases txe <;>
        simp only [usart1_isr_run, if_true, if_false, Bool.false_eq_true] <;>
        split <;> rfl

/-- Claim C10: `main` enables the USART transmit-empty interrupt before
pushing any banner byte; a transmit-empty interrupt serviced while the
outbound buffer is empty disables the interrupt and writes nothing; and
after startup the interrupt is re-enabled only by `adc1_2_isr` — every
invocation of `adc1_2_isr` contains the enable, the main operational loop
never enables it, and `usart1_isr` never turns it on. -/
theorem claim_C10 (n_conv : Nat) (rxne : Bool) (rxByte : Nat) (st : Statics)
    (s : UsartState) (hemp : s.sendBuf.head = s.sendBuf.tail) :
    (∃ pre suf, main_startup_actions n_conv = pre ++ Act.usartEnableTxInt :: suf ∧
      ∀ a ∈ pre, isPut a = false) ∧
    ((usart1_isr_run rxne true rxByte st s).1.txIntEnabled = false ∧
      (usart1_isr_run rxne true rxByte st s).2.2 = []) ∧
    (∀ w m, Act.usartEnableTxInt ∈ adc1_2_isr_actions w m) ∧
    Act.usartEnableTxInt ∉ main_loop_body ∧
    (∀ (rb tb : Bool) (rB : Nat) (st' : Statics) (s' : UsartState),
      (usart1_isr_run rb tb rB st' s').1.txIntEnabled = true →
      s'.txIntEnabled = true) := by
  refine ⟨?_, ?_, ?_, ?_, ?_⟩
  · refine ⟨[Act.setupCall, Act.setupCall] ++ usart_setup_actions ++
      dma_setup_actions ++ [Act.setupCall, Act.setupCall] ++
      [Act.bufferInitSend, Act.bufferInitRecv],
      (usart_print_string ("Dual ADC 8 channels 0-7 DMA IRQ\r\n")).map Act.put ++
        [Act.adcSetRegularSequence 1 (n_conv / 2) (channel_array_adc1 n_conv),
         Act.adcSetRegularSequence 2 (n_conv / 2) (channel_array_adc2 n_conv)],
      by rfl, by decide⟩
  · have hsent : (buffer_get s.sendBuf).1 = 0x100 := by
      rw [buffer_get, if_pos hemp]
    have hc : 0 < (0x100 : Nat) &&& 0xFF00 := by decide
    cases rxne <;>
      · simp only [usart1_isr_run, if_true, if_false, Bool.false_eq_true]
        rw [hsent, if_pos hc]
        exact ⟨rfl, rfl⟩
  · intro w m
    rw [adc1_2_isr_actions]
    simp
  · rw [main_loop_body, timer_wait_loop, pollClearRepeat_eq]
    intro hmem
    rcases List.mem_append.mp hmem with h | h
    · exact absurd (List.eq_of_mem_replicate h) (by intro hc; cases hc)
    · exact absurd (List.mem_singleton.mp h) (by decide)
  · intro rb tb rB st' s' h
    revert h
    cases rb <;> cases tb <;>
      simp only [usart1_isr_run, if_true, if_false, Bool.false_eq_true] <;>
      first
        | exact fun h => h
        | (split <;> simp_all)

/-- Witness for C10 with the freshly initialised buffers of `main`. -/
theorem claim_C10_witness :
    (buffer_init BUFFER_SIZE).head = (buffer_init BUFFER_SIZE).tail ∧
    (usart1_isr_run false true 0 ⟨0, 0⟩
      ⟨buffer_init BUFFER_SIZE, buffer_init BUFFER_SIZE, true⟩).1.txIntEnabled
        = false :=
  ⟨rfl, (claim_C10 8 false 0 ⟨0, 0⟩
      ⟨buffer_init BUFFER_SIZE, buffer_init BUFFER_SIZE, true⟩ rfl).2.1.1⟩

